import Mathlib

/-!
Verification of the NAS100 trading bot's connection layer and execution
engine.  The definitions below are a shallow embedding of the JavaScript
sources `CTraderConnection.js` and `ExecutionEngine.js`:

* the inbound/outbound length-prefixed framing (`handleIncomingData`, `send`),
* the reconnect backoff state machine (`scheduleReconnect`, `connect`),
* the payload-type codec (`getPayloadTypeName`) and message dispatch
  (`handleMessage`),
* the engine state machine (`executeStrategy`, `openPosition`,
  `handleExecutionEvent`, `reconcilePositions`, `resetDaily`, baseline
  acquisition).

Prices travel on the wire as integers scaled by 100000; since JavaScript
arithmetic on these values also produces halves (the mid price is
`(bid + ask) / 2`), prices and configuration values are modelled as
rationals.  Machine-level timers, sockets and logging have no effect on the
verified state and are omitted; where a code path depends on an external
outcome (a network call failing, the wall clock) that outcome is passed as
an explicit parameter.
-/

/-! ## Transport framer (CTraderConnection.js, `send` / `handleIncomingData`) -/

/-- Big-endian 4-byte encoding of a length, as `Buffer.writeUInt32BE` produces. -/
def toBE4 (n : Nat) : List Nat :=
  [n / 16777216 % 256, n / 65536 % 256, n / 256 % 256, n % 256]

/-- Big-endian 32-bit read of the first four bytes, as `Buffer.readUInt32BE`. -/
def readBE4 (b : List Nat) : Nat :=
  match b with
  | b0 :: b1 :: b2 :: b3 :: _ => b0 * 16777216 + b1 * 65536 + b2 * 256 + b3
  | _ => 0

/-- Outbound framing from `send`: 4-byte big-endian length header followed by
the payload (`Buffer.concat([lengthPfx, buffer])`). -/
def encodeFrame (p : List Nat) : List Nat :=
  toBE4 p.length ++ p

/-- A sequence of frames concatenated on the wire. -/
def encodeAll (ps : List (List Nat)) : List Nat :=
  (ps.map encodeFrame).flatten

/-- Greedy frame extraction from a buffer: repeatedly take a complete
`[4-byte length][payload]` frame, stopping at a partial frame.  The fuel
argument only bounds the recursion; `extractFrames` supplies enough. -/
def extractAux : Nat → List Nat → List (List Nat) × List Nat
  | 0, b => ([], b)
  | fuel + 1, b =>
    if b.length < 4 then ([], b)
    else if b.length < 4 + readBE4 b then ([], b)
    else
      ((b.drop 4).take (readBE4 b) :: (extractAux fuel (b.drop (4 + readBE4 b))).1,
        (extractAux fuel (b.drop (4 + readBE4 b))).2)

/-- All complete frames of a buffer together with the trailing partial frame. -/
def extractFrames (b : List Nat) : List (List Nat) × List Nat :=
  extractAux b.length b

/-- The `while (true)` scan of `handleIncomingData`: starting from `off`,
read a length header, stop if fewer than `4 + n` bytes remain, otherwise
extract `subarray(off + 4, off + 4 + n)` and advance.  Returns the extracted
payloads and the final offset. -/
def frameLoop : Nat → List Nat → Nat → List (List Nat) × Nat
  | 0, _, off => ([], off)
  | fuel + 1, buffer, off =>
    if buffer.length - off < 4 then ([], off)
    else if buffer.length - off < 4 + readBE4 (buffer.drop off) then ([], off)
    else
      ((buffer.drop (off + 4)).take (readBE4 (buffer.drop off)) ::
          (frameLoop fuel buffer (off + 4 + readBE4 (buffer.drop off))).1,
        (frameLoop fuel buffer (off + 4 + readBE4 (buffer.drop off))).2)

/-- `handleIncomingData`: append the new chunk to `incomingBuffer`, run the
scan loop from offset 0, then keep `subarray(offset)` as the new buffer.
Returns the complete payloads yielded and the retained buffer. -/
def handleIncomingData (buf data : List Nat) : List (List Nat) × List Nat :=
  let whole := buf ++ data
  let r := frameLoop whole.length whole 0
  (r.1, whole.drop r.2)

/-- Feed a sequence of socket chunks through `handleIncomingData`,
accumulating the yielded payloads and threading the retained buffer. -/
def feedAll : List Nat → List (List Nat) → List (List Nat) × List Nat
  | buf, [] => ([], buf)
  | buf, c :: cs =>
    let r := handleIncomingData buf c
    let r2 := feedAll r.2 cs
    (r.1 ++ r2.1, r2.2)

/-! ## Connection session: reconnect backoff (CTraderConnection.js) -/

/-- Connection-level mutable state of `CTraderConnection`: `connected`,
`authenticated`, the reconnect attempt counter and the backoff constants
(`reconnectDelay = 1000`, `maxReconnectAttempts = 10`). -/
structure ConnState where
  connected : Bool := false
  authenticated : Bool := false
  reconnectAttempts : Nat := 0
  maxReconnectAttempts : Nat := 10
  reconnectDelay : Nat := 1000
deriving DecidableEq

def initialConnState : ConnState := {}

/-- `scheduleReconnect`: if the attempt counter has reached the maximum,
emit `reconnect-failed` and schedule nothing; otherwise schedule a retry
after `min(reconnectDelay * 2 ^ attempts, 60000)` ms and increment the
counter.  Result: (new state, scheduled delay, reconnect-failed emitted). -/
def scheduleReconnect (c : ConnState) : ConnState × Option Nat × Bool :=
  if c.maxReconnectAttempts ≤ c.reconnectAttempts then (c, none, true)
  else
    let delay := min (c.reconnectDelay * 2 ^ c.reconnectAttempts) 60000
    ({ c with reconnectAttempts := c.reconnectAttempts + 1 }, some delay, false)

/-- The TLS connect callback in `connect`: sets `connected = true` and
resets `reconnectAttempts` to 0 (this happens before any authentication). -/
def onTlsConnected (c : ConnState) : ConnState :=
  { c with connected := true, reconnectAttempts := 0 }

/-- Receipt of `ProtoOAAccountAuthRes` in `handleMessage`: the transition to
the fully authenticated (Ready) state. -/
def onAccountAuthSuccess (c : ConnState) : ConnState :=
  { c with authenticated := true }

/-- The socket `close` handler: clear `connected`/`authenticated` and call
`scheduleReconnect`. -/
def onSocketClose (c : ConnState) : ConnState × Option Nat × Bool :=
  scheduleReconnect { c with connected := false, authenticated := false }

/-- `n` successive disconnections (socket close events) from a state. -/
def closesFrom (c : ConnState) : Nat → ConnState
  | 0 => c
  | n + 1 => (onSocketClose (closesFrom c n)).1

/-! ## Payload-type codec and message dispatch (CTraderConnection.js) -/

/-- `part.charAt(0) + part.slice(1).toLowerCase()` from `getPayloadTypeName`. -/
def capitalizeTail (part : String) : String :=
  part.take 1 ++ (part.drop 1).toLower

/-- Common-family name reconstruction: `HEARTBEAT_EVENT ↦ ProtoHeartbeatEvent`.
The enum is modelled as the association list of its `(name, id)` entries in
declaration order; `find?` mirrors the first-match loop. -/
def commonNameOfId (vals : List (String × Nat)) (typeId : Nat) : Option String :=
  (vals.find? (fun kv => kv.2 == typeId)).map (fun kv =>
    "Proto" ++ String.join ((kv.1.splitOn "_").map capitalizeTail))

/-- Per-part mapping for the OA family: `OA` and `PROTO` are special-cased. -/
def oaPartName (part : String) : String :=
  if part == "OA" then "OA"
  else if part == "PROTO" then "Proto"
  else capitalizeTail part

/-- OA-family name reconstruction: `PROTO_OA_ERROR_RES ↦ ProtoOAErrorRes`
(the source's trailing `.replace` calls substitute a string for itself and
are kept as written). -/
def oaNameOfId (vals : List (String × Nat)) (typeId : Nat) : Option String :=
  (vals.find? (fun kv => kv.2 == typeId)).map (fun kv =>
    ((((String.join ((kv.1.splitOn "_").map oaPartName)).replace "Req" "Req").replace
        "Res" "Res").replace "Event" "Event"))

/-- `getPayloadTypeName`: ids below 2000 are looked up in the common enum,
the rest in the OA enum; an id present in neither yields the fallback
string `Unknown(<id>)`. -/
def getPayloadTypeName (commonVals oaVals : List (String × Nat)) (typeId : Nat) : String :=
  if typeId < 2000 then
    match commonNameOfId commonVals typeId with
    | some n => n
    | none => "Unknown(" ++ toString typeId ++ ")"
  else
    match oaNameOfId oaVals typeId with
    | some n => n
    | none => "Unknown(" ++ toString typeId ++ ")"

/-- A decoded `ProtoMessage` envelope: numeric payload type and optional
correlation id. -/
structure WireMessage where
  payloadType : Nat
  clientMsgId : Option String
deriving DecidableEq

/-- The part of the connection state touched by `handleMessage`. -/
structure ConnMsgState where
  lastHeartbeat : Nat
  authenticated : Bool
  pendingRequests : List (String × String)
deriving DecidableEq

/-- Observable outcome of one `handleMessage` call. -/
structure HandleResult where
  state : ConnMsgState
  typeName : String
  resolvedId : Option String
  messageEmitted : Bool
deriving DecidableEq

/-- `handleMessage`: refresh the staleness clock, compute the type name,
resolve (and delete) a pending request whose correlation id matches, run the
special-case switch (`ProtoOAAccountAuthRes` sets `authenticated`;
`ProtoHeartbeatEvent` refreshes the clock again), and finally emit the frame
as a `message` event. -/
def handleMessage (commonVals oaVals : List (String × Nat)) (now : Nat)
    (st : ConnMsgState) (msg : WireMessage) : HandleResult :=
  let st1 : ConnMsgState := { st with lastHeartbeat := now }
  let name := getPayloadTypeName commonVals oaVals msg.payloadType
  let pendingHit : Bool :=
    match msg.clientMsgId with
    | some id => (st1.pendingRequests.find? (fun kv => kv.1 == id)).isSome
    | none => false
  let st2 :=
    match msg.clientMsgId with
    | some id =>
      if (st1.pendingRequests.find? (fun kv => kv.1 == id)).isSome then
        { st1 with pendingRequests := st1.pendingRequests.filter (fun kv => kv.1 != id) }
      else st1
    | none => st1
  let resolvedId :=
    match msg.clientMsgId with
    | some id => if pendingHit then some id else none
    | none => none
  let st3 :=
    if name == "ProtoOAAccountAuthRes" then { st2 with authenticated := true }
    else if name == "ProtoHeartbeatEvent" then { st2 with lastHeartbeat := now }
    else st2
  { state := st3, typeName := name, resolvedId := resolvedId, messageEmitted := true }

/-! ## Execution engine data model (ExecutionEngine.js) -/

inductive TradeSide
  | long
  | short
deriving DecidableEq

/-- A local position record as built by `reconcilePositions`. -/
structure LocalPosition where
  id : Nat
  side : TradeSide
  entryPrice : ℚ
  volume : Option ℚ
  openTime : Nat
deriving DecidableEq

/-- A broker position from `ProtoOAReconcileRes` (after the source's
Long-object normalisation; `tradeSide` is the numeric enum, 1 = BUY). -/
structure RawPosition where
  positionId : Nat
  tradeSide : Nat
  volume : Option Nat
  price : ℚ
  openTimestamp : Nat
deriving DecidableEq

/-- A closed-trade ledger entry (`handleTradeClosed`). -/
structure TradeRecord where
  id : Nat
  closeTime : Nat
  profit : ℚ
  balance : ℚ
  side : TradeSide
deriving DecidableEq

/-- The snapshot persisted by `saveState` that the daily-reset guard reads
back (`todayTradeDone` and `lastResetDate`; the remaining persisted fields
play no role in the verified properties). -/
structure DbState where
  todayTradeDone : Bool
  lastResetDate : Option String
deriving DecidableEq

/-- The bracket stashed by `openPosition` and applied after a fill. -/
structure PendingSlTp where
  side : TradeSide
  stopLoss : ℚ
  takeProfit : ℚ
deriving DecidableEq

/-- Instrument metadata assembled by `getSymbolInfo`. -/
structure SymbolInfo where
  symbolId : Nat
  symbolName : String
  lotSize : Nat
  digits : Nat
  stepVolume : Nat
  minVolume : Nat
deriving DecidableEq

/-- A symbol entry of `ProtoOASymbolsListRes` with its optional fields. -/
structure RawSymbol where
  symbolId : Nat
  symbolName : String
  lotSize : Option Nat
  digits : Option Nat
  stepVolume : Option Nat
  minVolume : Option Nat
deriving DecidableEq

/-- The metadata-defaulting in `getSymbolInfo`: `lotSize || 100`,
`digits || 2`, `stepVolume || 100000`, `minVolume || 100000`. -/
def assembleSymbolInfo (s : RawSymbol) : SymbolInfo :=
  { symbolId := s.symbolId
    symbolName := s.symbolName
    lotSize := s.lotSize.getD 100
    digits := s.digits.getD 2
    stepVolume := s.stepVolume.getD 100000
    minVolume := s.minVolume.getD 100000 }

/-- The fields of `ProtoOANewOrderReq` filled in by `openPosition`. -/
structure OrderReq where
  symbolId : Nat
  orderType : Nat
  tradeSide : Nat
  volume : Int
deriving DecidableEq

/-- The mutable engine state of `ExecutionEngine`. -/
structure EngineState where
  entryOffset : ℚ
  longTP : ℚ
  shortTP : ℚ
  longSL : ℚ
  shortSL : ℚ
  lotSize : ℚ
  balance : Option ℚ
  positions : List LocalPosition
  todayTradeDone : Bool
  todayOpenPrice : Option ℚ
  currentPrice : Option ℚ
  tvOpenPrice : Option ℚ
  isWatching : Bool
  isPlacingOrder : Bool
  orderFailureCount : Nat
  pendingSlTp : Option PendingSlTp
  lastResetDate : Option String
  wins : Nat
  losses : Nat
  trades : List TradeRecord
  db : Option DbState
deriving DecidableEq

/-- The constructor of `ExecutionEngine`: strategy parameters from config,
everything else empty/false/zero. -/
def initialEngineState (entryOffset longTP shortTP longSL shortSL lotSize : ℚ) : EngineState :=
  { entryOffset := entryOffset
    longTP := longTP
    shortTP := shortTP
    longSL := longSL
    shortSL := shortSL
    lotSize := lotSize
    balance := none
    positions := []
    todayTradeDone := false
    todayOpenPrice := none
    currentPrice := none
    tvOpenPrice := none
    isWatching := false
    isPlacingOrder := false
    orderFailureCount := 0
    pendingSlTp := none
    lastResetDate := none
    wins := 0
    losses := 0
    trades := []
    db := none }

/-- `saveState`: persist the snapshot (modelled fields) to the database. -/
def saveState (st : EngineState) : EngineState :=
  { st with db := some { todayTradeDone := st.todayTradeDone, lastResetDate := st.lastResetDate } }

/-! ## Entry rule (`executeStrategy`) -/

/-- `executeStrategy` evaluated on one tick.  `withinHours` is the result of
the wall-clock check `isWithinTradingHours()`.  The outer `Option` is `some`
exactly when every guard passes and the entry comparison is evaluated; the
inner value is the dispatched side (`none` inside: neither threshold met).
The comparison uses `diff = currentPrice - todayOpenPrice` against
`offsetRaw = entryOffset * 100000`, short checked first with `≥`. -/
def executeStrategy (withinHours : Bool) (st : EngineState) : Option (Option TradeSide) :=
  match st.currentPrice, st.todayOpenPrice with
  | some cp, some base =>
    if st.todayTradeDone || !st.isWatching then none
    else if !withinHours then none
    else
      let diff := cp - base
      let offsetRaw := st.entryOffset * 100000
      some (if offsetRaw ≤ diff then some TradeSide.short
            else if diff ≤ -offsetRaw then some TradeSide.long
            else none)
  | _, _ => none

/-! ## Order placement (`openPosition`) -/

/-- JavaScript `Math.round` (round half toward positive infinity). -/
def jsRound (q : ℚ) : Int := ⌊q + 1 / 2⌋

/-- The volume computation in `openPosition`:
`Math.round(lotSize * 100)` clamped below by the hardcoded `minVolume = 10`
(0.1 lots).  The instrument metadata is not consulted here. -/
def computeOrderVolume (lotSizeCfg : ℚ) : Int :=
  let volume := jsRound (lotSizeCfg * 100)
  if volume < 10 then 10 else volume

/-- Where the placement path can fail: the symbol lookup throwing, or the
order send rejecting; `ok` is the normal path. -/
inductive PlaceResult
  | ok
  | symbolInfoFail
  | sendFail
deriving DecidableEq

/-- `openPosition`: if `todayTradeDone` or `isPlacingOrder` is set, return
immediately.  Otherwise take the lock, compute the volume and the
baseline-anchored bracket, stash `pendingSlTp`, and send the market order;
errors are caught and reported as a trade-error.  The `finally` block always
clears `isPlacingOrder` and `isWatching`.  Result: (state, order sent on the
wire, trade-error emitted).  Note `openPriceReal` coerces a null baseline to
0, as JavaScript division does. -/
def openPosition (st : EngineState) (side : TradeSide) (sym : SymbolInfo)
    (r : PlaceResult) : EngineState × Option OrderReq × Bool :=
  if st.todayTradeDone || st.isPlacingOrder then (st, none, false)
  else
    let st1 := { st with isPlacingOrder := true }
    match r with
    | .symbolInfoFail =>
      ({ st1 with isPlacingOrder := false, isWatching := false }, none, true)
    | _ =>
      let volume := computeOrderVolume st1.lotSize
      let openPriceReal : ℚ := st1.todayOpenPrice.getD 0 / 100000
      let tpPriceReal :=
        match side with
        | .long => openPriceReal + st1.longTP
        | .short => openPriceReal - st1.shortTP
      let slPriceReal :=
        match side with
        | .long => openPriceReal - st1.longSL
        | .short => openPriceReal + st1.shortSL
      let st2 := { st1 with
        pendingSlTp := some { side := side, stopLoss := slPriceReal, takeProfit := tpPriceReal } }
      let order : OrderReq :=
        { symbolId := sym.symbolId
          orderType := 1
          tradeSide := match side with | .long => 1 | .short => 2
          volume := volume }
      match r with
      | .sendFail =>
        ({ st2 with isPlacingOrder := false, isWatching := false }, some order, true)
      | _ =>
        ({ st2 with isPlacingOrder := false, isWatching := false }, some order, false)

/-! ## Execution events (`handleExecutionEvent`, `handleTradeClosed`) -/

/-- The opening-fill branch of `handleExecutionEvent` (ORDER_FILLED without
close detail): mark `todayTradeDone`, persist, and - when a bracket is
pending and the event carries a position id - issue the SL/TP amendment and
clear the pending bracket. -/
def handleOrderFilledOpen (st : EngineState) (hasPositionId : Bool) : EngineState :=
  let st1 := saveState { st with todayTradeDone := true }
  if st1.pendingSlTp.isSome && hasPositionId then { st1 with pendingSlTp := none }
  else st1

/-- The ORDER_REJECTED branch of `handleExecutionEvent`: increment the
failure counter; if a trade had been marked done, clear the flag while the
counter is at most 3, otherwise keep it set and stop.  Second component:
a trade-error signal was emitted (true on every rejection). -/
def handleRejection (st : EngineState) : EngineState × Bool :=
  let st1 := { st with orderFailureCount := st.orderFailureCount + 1 }
  if st1.todayTradeDone then
    if st1.orderFailureCount ≤ 3 then
      (saveState { st1 with todayTradeDone := false }, true)
    else
      (st1, true)
  else
    (st1, true)

/-- A closing deal as consumed by `handleTradeClosed` (monetary amounts in
the protocol's scaled integer units). -/
structure Deal where
  positionId : Nat
  grossProfit : Int
  swap : Int
  commission : Int
  balanceRaw : Int
  moneyDigits : Nat
  tradeSide : Nat
  executionTimestamp : Nat
deriving DecidableEq

/-- `handleTradeClosed`: compute net profit and balance, bump win/loss
counters, prepend the bounded (50-entry) trade ring, drop the closed
position from the local cache, and persist. -/
def handleTradeClosed (st : EngineState) (d : Deal) : EngineState :=
  let netProfit : ℚ := ((d.grossProfit + d.swap + d.commission : Int) : ℚ) / 10000
  let bal : ℚ := (d.balanceRaw : ℚ) / 10 ^ d.moneyDigits
  let rec0 : TradeRecord :=
    { id := d.positionId
      closeTime := d.executionTimestamp
      profit := netProfit
      balance := bal
      side := if d.tradeSide == 1 then TradeSide.long else TradeSide.short }
  let ts := rec0 :: st.trades
  saveState { st with
    balance := some bal
    wins := if 0 < netProfit then st.wins + 1 else st.wins
    losses := if 0 < netProfit then st.losses else st.losses + 1
    trades := if 50 < ts.length then ts.dropLast else ts
    positions := st.positions.filter (fun p => p.id != d.positionId) }

/-! ## Reconciliation (`reconcilePositions`) -/

/-- The per-position mapping in `reconcilePositions` (`volume ? volume / 100
: null` makes a zero volume null, like the JavaScript truthiness check). -/
def convertPosition (p : RawPosition) : LocalPosition :=
  { id := p.positionId
    side := if p.tradeSide == 1 then TradeSide.long else TradeSide.short
    entryPrice := p.price
    volume :=
      match p.volume with
      | some v => if v == 0 then none else some ((v : ℚ) / 100)
      | none => none
    openTime := p.openTimestamp }

/-- `reconcilePositions` (success path): replace the local position cache
with the broker's list; when it is non-empty, log and persist.  The
trade-done flag is deliberately untouched. -/
def reconcilePositions (st : EngineState) (raw : List RawPosition) : EngineState :=
  let st1 := { st with positions := raw.map convertPosition }
  if 0 < raw.length then saveState st1 else st1

/-! ## Daily reset (`resetDaily`) -/

/-- The guard of `resetDaily`: the persisted snapshot exists and its
`lastResetDate` equals today's Taipei calendar date string. -/
def alreadyResetToday (db : Option DbState) (today : String) : Bool :=
  match db with
  | some d => d.lastResetDate == some today
  | none => false

/-- The mutation performed by `resetDaily`: clear the session flags and the
baseline, record today as the reset date, and persist. -/
def performDailyReset (today : String) (st : EngineState) : EngineState :=
  saveState { st with
    todayTradeDone := false
    todayOpenPrice := none
    tvOpenPrice := none
    isWatching := false
    isPlacingOrder := false
    orderFailureCount := 0
    lastResetDate := some today }

/-- `resetDaily(force)`: without `force`, skip entirely if the persisted
snapshot already carries today's date; otherwise (or with `force`) perform
the reset. -/
def resetDaily (force : Bool) (today : String) (st : EngineState) : EngineState :=
  if !force && alreadyResetToday st.db today then st
  else performDailyReset today st

/-! ## Baseline lifecycle (`fetchAndSetOpenPrice`, `handleSpotEvent`) -/

/-- The engine operations that can run between entry evaluations, with the
baseline-fetch path split at its suspension points: `fetchStart` is the
clearing write at the top of `fetchAndSetOpenPrice` (`todayOpenPrice =
null` before any await), `fetchSuccess` is `setTodayOpenPrice` on a
non-null result, `fetchFail` is a fetch attempt that returned null.
`dailyReset` is the mutating branch of `resetDaily` (its guarded branch is
the identity on the state). -/
inductive BaselineEvent
  | fetchStart
  | fetchSuccess (p : ℚ)
  | fetchFail
  | dailyReset (today : String)
  | spotTick (mid : ℚ)
  | fillOpen (hasPositionId : Bool)
  | rejection
  | tradeClosed (d : Deal)
  | reconcile (raw : List RawPosition)
  | place (side : TradeSide) (sym : SymbolInfo) (r : PlaceResult)
deriving DecidableEq

/-- One engine step, dispatching to the modelled operations. -/
def baselineStep (st : EngineState) (e : BaselineEvent) : EngineState :=
  match e with
  | .fetchStart => { st with todayOpenPrice := none }
  | .fetchSuccess p => { st with todayOpenPrice := some p }
  | .fetchFail => st
  | .dailyReset today => resetDaily true today st
  | .spotTick mid => { st with currentPrice := some mid }
  | .fillOpen b => handleOrderFilledOpen st b
  | .rejection => (handleRejection st).1
  | .tradeClosed d => handleTradeClosed st d
  | .reconcile raw => reconcilePositions st raw
  | .place side sym r => (openPosition st side sym r).1

/-- The effect of one event on the baseline alone: fetch starts and resets
clear it, successful fetches set it, every other operation leaves it alone. -/
def baselineProjStep (acc : Option ℚ) (e : BaselineEvent) : Option ℚ :=
  match e with
  | .fetchStart => none
  | .fetchSuccess p => some p
  | .dailyReset _ => none
  | _ => acc

/-- The baseline value predicted from the event trace alone. -/
def baselineAfter (events : List BaselineEvent) (init : Option ℚ) : Option ℚ :=
  events.foldl baselineProjStep init

/-- Whether an event is a successful baseline fetch. -/
def isFetchSuccess (e : BaselineEvent) : Bool :=
  match e with
  | .fetchSuccess _ => true
  | _ => false

/-! ## Concrete states used to instantiate the theorems -/

/-- NAS100 instrument metadata with the `getSymbolInfo` defaults for the
optional volume fields. -/
def symNas : SymbolInfo :=
  assembleSymbolInfo
    { symbolId := 185, symbolName := "NAS100", lotSize := none, digits := none,
      stepVolume := none, minVolume := none }

/-- A freshly constructed engine: offset 10 points, TP 30, SL 20, 1 lot. -/
def stBase : EngineState := initialEngineState 10 30 30 20 20 1

/-- Watching with a baseline of 2500000 raw units and a tick at 3600000. -/
def stTickShort : EngineState :=
  { stBase with
    currentPrice := some 3600000, todayOpenPrice := some 2500000,
    isWatching := true }

/-- An engine whose placement lock is currently held. -/
def stLocked : EngineState :=
  { stBase with isPlacingOrder := true, isWatching := true }

/-- An engine ready to place an order (watching, baseline set, lock free). -/
def stReady : EngineState :=
  { stBase with isWatching := true, todayOpenPrice := some 2500000 }

/-- A marked trade that has already been rejected three times. -/
def stCapReached : EngineState :=
  { stBase with todayTradeDone := true, orderFailureCount := 3 }

/-- The engine state reached by: fill, rejection, fill, rejection, fill,
rejection - i.e. immediately after the third consecutive rejection of a
marked trade. -/
def afterThirdRejection : EngineState :=
  (handleRejection (handleOrderFilledOpen (handleRejection (handleOrderFilledOpen
    (handleRejection (handleOrderFilledOpen stBase true)).1 true)).1 true)).1

/-- Two disconnections from a fresh connection. -/
def connAfterTwoCloses : ConnState := closesFrom initialConnState 2

/-- A session trace: the baseline is fetched successfully, then a periodic
refresh starts (clearing it) and fails. -/
def baselineTrace : List BaselineEvent :=
  [BaselineEvent.fetchSuccess 2545000, BaselineEvent.fetchStart, BaselineEvent.fetchFail]

/-- Common payload-type enum fragment for instantiation. -/
def commonValsW : List (String × Nat) := [("HEARTBEAT_EVENT", 51)]

/-- OA payload-type enum fragment for instantiation. -/
def oaValsW : List (String × Nat) :=
  [("PROTO_OA_APPLICATION_AUTH_REQ", 2100), ("PROTO_OA_ERROR_RES", 2142)]

/-- A connection with one pending correlated request. -/
def connMsgStW : ConnMsgState :=
  { lastHeartbeat := 0, authenticated := false,
    pendingRequests := [("5", "ProtoOAReconcileReq")] }

/-- An inbound frame whose payload type is in neither enum. -/
def msgUnknownW : WireMessage := { payloadType := 9999, clientMsgId := some "5" }

/-- Payloads, a fragmentation of their encoding plus a trailing partial
frame, and that partial frame, for the framing round-trip instantiation. -/
def framePayloads : List (List Nat) := [[1, 2, 3], [4]]

def frameChunks : List (List Nat) :=
  [[0, 0], [0, 3, 1], [2, 3, 0, 0, 0], [1, 4, 0, 0], [0, 9, 7]]

def frameTail : List Nat := [0, 0, 0, 9, 7]

/-! ## C1: entry-rule determinism -/

/-- Claim C1: for a tick processed by `executeStrategy` with baseline `B`,
current price `cp` and scaled offset `O = entryOffset * 100000` (guards
passed: baseline set, not done, watching, within hours, positive offset):
`cp - B ≥ O` dispatches a short and no long; `cp - B ≤ -O` dispatches a
long and no short; strictly between the thresholds nothing is dispatched;
at the exact boundary `cp - B = O` the short branch fires. -/
theorem C1_entry_rule (st : EngineState) (cp base : ℚ)
    (hcp : st.currentPrice = some cp) (hbase : st.todayOpenPrice = some base)
    (hdone : st.todayTradeDone = false) (hwatch : st.isWatching = true)
    (hoff : 0 < st.entryOffset) :
    (st.entryOffset * 100000 ≤ cp - base →
      executeStrategy true st = some (some TradeSide.short)) ∧
    (cp - base ≤ -(st.entryOffset * 100000) →
      executeStrategy true st = some (some TradeSide.long)) ∧
    (-(st.entryOffset * 100000) < cp - base → cp - base < st.entryOffset * 100000 →
      executeStrategy true st = some none) ∧
    (cp - base = st.entryOffset * 100000 →
      executeStrategy true st = some (some TradeSide.short)) := by
  have hO : (0 : ℚ) < st.entryOffset * 100000 := by positivity
  have hguard : executeStrategy true st =
      some (if st.entryOffset * 100000 ≤ cp - base then some TradeSide.short
            else if cp - base ≤ -(st.entryOffset * 100000) then some TradeSide.long
            else none) := by
    simp [executeStrategy, hcp, hbase, hdone, hwatch]
  refine ⟨fun h => ?_, fun h => ?_, fun h1 h2 => ?_, fun h => ?_⟩
  · rw [hguard, if_pos h]
  · rw [hguard, if_neg (by linarith), if_pos h]
  · rw [hguard, if_neg (by linarith), if_neg (by linarith)]
  · rw [hguard, if_pos (le_of_eq h.symm)]

/-- Witness for C1 at the spec's example: baseline 2500000, offset 10
(raw 1000000), tick 3600000, diff 1100000 ≥ 1000000 → short. -/
theorem C1_entry_rule_witness :
    executeStrategy true stTickShort = some (some TradeSide.short) := by
  have h := C1_entry_rule stTickShort 3600000 2500000 (by decide) (by decide)
    (by decide) (by decide) (by norm_num [stTickShort, stBase, initialEngineState])
  exact h.1 (by norm_num [stTickShort, stBase, initialEngineState])

/-! ## C2: single-flight order placement -/

/-- Claim C2: an `openPosition` invocation entered while `isPlacingOrder`
or `todayTradeDone` is set returns immediately with no state change, no
order sent and no error emitted; every invocation that enters the placement
path - whether it completes normally or fails at the symbol lookup or the
send - finishes with `isPlacingOrder = false` and `isWatching = false`
(the `finally` block), so at most one placement attempt runs at a time. -/
theorem C2_single_flight (st : EngineState) (side : TradeSide) (sym : SymbolInfo)
    (r : PlaceResult) :
    (st.todayTradeDone = true ∨ st.isPlacingOrder = true →
      openPosition st side sym r = (st, none, false)) ∧
    (st.todayTradeDone = false → st.isPlacingOrder = false →
      (openPosition st side sym r).1.isPlacingOrder = false ∧
      (openPosition st side sym r).1.isWatching = false) := by
  constructor
  · intro h
    have hb : (st.todayTradeDone || st.isPlacingOrder) = true := by
      rcases h with h | h <;> simp [h]
    simp [openPosition, hb]
  · intro h1 h2
    have hb : (st.todayTradeDone || st.isPlacingOrder) = false := by simp [h1, h2]
    cases r <;> simp [openPosition, hb]

/-- Witness for C2: a locked engine ignores the call unchanged; a free
engine that fails at the send still ends with both flags cleared. -/
theorem C2_single_flight_witness :
    openPosition stLocked TradeSide.long symNas PlaceResult.ok = (stLocked, none, false) ∧
    (openPosition stReady TradeSide.long symNas PlaceResult.sendFail).1.isPlacingOrder = false ∧
    (openPosition stReady TradeSide.long symNas PlaceResult.sendFail).1.isWatching = false := by
  refine ⟨(C2_single_flight stLocked TradeSide.long symNas PlaceResult.ok).1 (Or.inr rfl), ?_, ?_⟩
  · exact ((C2_single_flight stReady TradeSide.long symNas PlaceResult.sendFail).2 rfl rfl).1
  · exact ((C2_single_flight stReady TradeSide.long symNas PlaceResult.sendFail).2 rfl rfl).2

/-! ## C3: rejection cap -/

/-- Counterexample to C3 as stated: after a fill, three consecutive
rejections (the flag re-marked by a fill before each) leave the failure
counter at 3 and `todayTradeDone` cleared - the third rejection still
clears the flag (the code clears while the incremented counter is ≤ 3);
only from the fourth rejection onward does the flag stay set. -/
theorem C3_counterexample :
    afterThirdRejection.orderFailureCount = 3 ∧
    afterThirdRejection.todayTradeDone = false := by decide

/-- Claim C3 (amended): on a rejection while `todayTradeDone` is set, the
counter is incremented, and the flag is cleared on each such rejection
while the counter was below 3 (the first three); from the fourth rejection
onward the flag stays set, a trade-error signal is emitted, and
`openPosition` refuses any further attempt. -/
theorem C3_rejection_cap (st : EngineState) (h : st.todayTradeDone = true) :
    (handleRejection st).1.orderFailureCount = st.orderFailureCount + 1 ∧
    (st.orderFailureCount < 3 → (handleRejection st).1.todayTradeDone = false) ∧
    (3 ≤ st.orderFailureCount →
      (handleRejection st).1.todayTradeDone = true ∧
      (handleRejection st).2 = true ∧
      ∀ side sym r, openPosition (handleRejection st).1 side sym r =
        ((handleRejection st).1, none, false)) := by
  by_cases hc : st.orderFailureCount + 1 ≤ 3
  · refine ⟨by simp [handleRejection, saveState, h, hc],
      fun _ => by simp [handleRejection, saveState, h, hc],
      fun h3 => absurd h3 (by omega)⟩
  · have hdone : (handleRejection st).1.todayTradeDone = true := by
      simp [handleRejection, h, hc]
    refine ⟨by simp [handleRejection, h, hc],
      fun h3 => absurd h3 (by omega),
      fun _ => ⟨hdone, by simp [handleRejection, h, hc], fun side sym r => ?_⟩⟩
    simp [openPosition, hdone]

/-- Witness for C3 at the cap: a fourth rejection (counter already 3)
increments the counter and leaves the trade-done flag set, and a subsequent
`openPosition` call is a no-op. -/
theorem C3_rejection_cap_witness :
    (handleRejection stCapReached).1.orderFailureCount = 4 ∧
    (handleRejection stCapReached).1.todayTradeDone = true ∧
    openPosition (handleRejection stCapReached).1 TradeSide.long symNas PlaceResult.ok
      = ((handleRejection stCapReached).1, none, false) := by
  have h := C3_rejection_cap stCapReached rfl
  exact ⟨by rw [h.1]; decide, (h.2.2 (by decide)).1,
    (h.2.2 (by decide)).2.2 TradeSide.long symNas PlaceResult.ok⟩

/-! ## C4: daily-reset idempotence -/

/-- Claim C4: calling `resetDaily` twice on the same calendar day without
`force` performs the mutation exactly once (the second call returns the
state unchanged), and `resetDaily` with `force` always performs the full
mutation - clearing `todayTradeDone`, `todayOpenPrice`, `isWatching`,
`isPlacingOrder`, `orderFailureCount` and persisting today's reset date -
regardless of the persisted `lastResetDate`. -/
theorem C4_reset_idempotent (st : EngineState) (today : String) :
    resetDaily false today (resetDaily false today st) = resetDaily false today st ∧
    resetDaily true today st = performDailyReset today st ∧
    (resetDaily true today st).todayTradeDone = false ∧
    (resetDaily true today st).todayOpenPrice = none ∧
    (resetDaily true today st).isWatching = false ∧
    (resetDaily true today st).isPlacingOrder = false ∧
    (resetDaily true today st).orderFailureCount = 0 ∧
    (resetDaily true today st).db =
      some { todayTradeDone := false, lastResetDate := some today } := by
  have hforce : resetDaily true today st = performDailyReset today st := by
    simp [resetDaily]
  refine ⟨?_, hforce, ?_, ?_, ?_, ?_, ?_, ?_⟩
  · by_cases hg : alreadyResetToday st.db today
    · simp [resetDaily, hg]
    · have h1 : resetDaily false today st = performDailyReset today st := by
        simp [resetDaily, hg]
      have h2 : alreadyResetToday (performDailyReset today st).db today = true := by
        simp [alreadyResetToday, performDailyReset, saveState]
      rw [h1]
      simp [resetDaily, h2]
  all_goals rw [hforce]; simp [performDailyReset, saveState]

/-! ## C5: reconciliation non-interference -/

/-- Claim C5: `reconcilePositions` leaves `todayTradeDone` exactly as it
was, whatever the broker's position list contains; a closing fill also
leaves it unchanged; the flag is set to true (only) by the opening-fill
branch of `handleExecutionEvent`. -/
theorem C5_reconcile_preserves_tradeDone :
    (∀ st raw, (reconcilePositions st raw).todayTradeDone = st.todayTradeDone) ∧
    (∀ st d, (handleTradeClosed st d).todayTradeDone = st.todayTradeDone) ∧
    (∀ st b, (handleOrderFilledOpen st b).todayTradeDone = true) := by
  refine ⟨fun st raw => ?_, fun st d => ?_, fun st b => ?_⟩
  · by_cases h : 0 < raw.length <;> simp [reconcilePositions, saveState, h]
  · simp [handleTradeClosed, saveState]
  · simp only [handleOrderFilledOpen]
    split <;> simp [saveState]

/-! ## C7: reconnect backoff -/

/-- Helper: behaviour of `scheduleReconnect` on both sides of the cap. -/
theorem scheduleReconnect_spec (c : ConnState) :
    (c.reconnectAttempts < c.maxReconnectAttempts →
      scheduleReconnect c =
        ({ c with reconnectAttempts := c.reconnectAttempts + 1 },
          some (min (c.reconnectDelay * 2 ^ c.reconnectAttempts) 60000), false)) ∧
    (c.maxReconnectAttempts ≤ c.reconnectAttempts →
      scheduleReconnect c = (c, none, true)) := by
  constructor
  · intro h
    rw [scheduleReconnect, if_neg (by omega)]
  · intro h
    rw [scheduleReconnect, if_pos h]

/-- Helper: after `n ≤ 10` disconnections from a fresh connection, the
attempt counter is `n` and the backoff constants are unchanged. -/
theorem closesFrom_attempts (n : Nat) (hn : n ≤ 10) :
    (closesFrom initialConnState n).reconnectAttempts = n ∧
    (closesFrom initialConnState n).maxReconnectAttempts = 10 ∧
    (closesFrom initialConnState n).reconnectDelay = 1000 := by
  induction n with
  | zero => exact ⟨rfl, rfl, rfl⟩
  | succ k ih =>
    obtain ⟨ha, hm, hd⟩ := ih (by omega)
    have hstep := (scheduleReconnect_spec
      { closesFrom initialConnState k with connected := false, authenticated := false }).1
      (by simp [ha, hm]; omega)
    simp only [closesFrom, onSocketClose, hstep]
    exact ⟨by simp [ha], by simp [hm], by simp [hd]⟩

/-- Counterexample to C7 as stated: after two scheduled reconnects the
counter is 2; the TLS connect callback then resets it to 0 although the
state is not Ready (`authenticated` is still false), and the actual Ready
transition (account-auth success) leaves the counter untouched - so the
reset does not happen "exactly on the next successful transition to the
Ready state". -/
theorem C7_counterexample :
    connAfterTwoCloses.reconnectAttempts = 2 ∧
    (onTlsConnected connAfterTwoCloses).reconnectAttempts = 0 ∧
    (onTlsConnected connAfterTwoCloses).authenticated = false ∧
    (onAccountAuthSuccess connAfterTwoCloses).reconnectAttempts = 2 := by decide

/-- Claim C7 (amended): the n-th scheduled reconnect attempt is delayed by
`min(1000 * 2^n, 60000)` ms with the counter incremented each time; after
10 attempts nothing further is scheduled and the fatal reconnect-failed
signal is emitted; the counter is reset to zero by the TLS connect
callback (before authentication), and the Ready transition itself does not
change it. -/
theorem C7_reconnect_backoff (n : Nat) (c : ConnState) (hn : n < 10) :
    (onSocketClose (closesFrom initialConnState n)).2 =
      (some (min (1000 * 2 ^ n) 60000), false) ∧
    (closesFrom initialConnState (n + 1)).reconnectAttempts = n + 1 ∧
    (onSocketClose (closesFrom initialConnState 10)).2 = (none, true) ∧
    (onTlsConnected c).reconnectAttempts = 0 ∧
    (onTlsConnected c).connected = true ∧
    (onAccountAuthSuccess c).reconnectAttempts = c.reconnectAttempts := by
  obtain ⟨ha, hm, hd⟩ := closesFrom_attempts n (by omega)
  obtain ⟨ha10, hm10, hd10⟩ := closesFrom_attempts 10 (by omega)
  refine ⟨?_, (closesFrom_attempts (n + 1) (by omega)).1, ?_, rfl, rfl, rfl⟩
  · have hstep := (scheduleReconnect_spec
      { closesFrom initialConnState n with connected := false, authenticated := false }).1
      (by simp [ha, hm]; omega)
    simp only [onSocketClose, hstep]
    simp [ha, hd]
  · have hstep := (scheduleReconnect_spec
      { closesFrom initialConnState 10 with connected := false, authenticated := false }).2
      (by simp [ha10, hm10])
    simp only [onSocketClose, hstep]

/-- Witness for C7 at n = 3: the fourth scheduled attempt is delayed by
8000 ms, and the TLS connect callback zeroes the counter. -/
theorem C7_reconnect_backoff_witness :
    (onSocketClose (closesFrom initialConnState 3)).2 = (some 8000, false) ∧
    (onTlsConnected initialConnState).reconnectAttempts = 0 := by
  have h := C7_reconnect_backoff 3 initialConnState (by decide)
  exact ⟨by rw [h.1]; decide, h.2.2.2.1⟩

/-! ## C9: order volume computation -/

/-- Counterexample to C9: with the default NAS100 metadata
(`minVolume = stepVolume = 100000`) and a configured lot size of 1, the
order sent by `openPosition` carries volume `Math.round(1 * 100) = 100`,
far below the instrument's minimum volume and not clamped to it - the
fetched lot/step/minimum metadata is not used by the volume computation. -/
theorem C9_counterexample :
    (openPosition stReady TradeSide.long symNas PlaceResult.ok).2.1 =
      some { symbolId := 185, orderType := 1, tradeSide := 1, volume := 100 } ∧
    symNas.minVolume = 100000 ∧
    ¬(100000 ≤ (100 : Int)) := by
  refine ⟨?_, rfl, by decide⟩
  have hvol : computeOrderVolume stReady.lotSize = 100 := by
    have h1 : stReady.lotSize = 1 := rfl
    rw [h1]
    norm_num [computeOrderVolume, jsRound]
  have hb : (stReady.todayTradeDone || stReady.isPlacingOrder) = false := rfl
  simp [openPosition, hb, hvol]
  rfl

/-- Claim C9 (amended): the order volume is `Math.round(lotSize * 100)`
clamped below by the hardcoded minimum of 10 volume units; it is
independent of the instrument metadata passed to `openPosition`. -/
theorem C9_volume_formula (st : EngineState) (side : TradeSide)
    (sym sym2 : SymbolInfo) (r : PlaceResult) (o : OrderReq)
    (ho : (openPosition st side sym r).2.1 = some o) :
    o.volume = max 10 (jsRound (st.lotSize * 100)) ∧
    ((openPosition st side sym2 r).2.1).map OrderReq.volume =
      ((openPosition st side sym r).2.1).map OrderReq.volume := by
  have hvol : ∀ q : ℚ, computeOrderVolume q = max 10 (jsRound (q * 100)) := by
    intro q
    unfold computeOrderVolume
    by_cases h : jsRound (q * 100) < 10
    · rw [if_pos h]; omega
    · rw [if_neg h]; omega
  cases hb : (st.todayTradeDone || st.isPlacingOrder) with
  | true => simp [openPosition, hb] at ho
  | false =>
    cases r with
    | symbolInfoFail => simp [openPosition, hb] at ho
    | ok =>
      simp only [openPosition, hb, Bool.false_eq_true, if_false] at ho ⊢
      simp only [Option.some.injEq] at ho
      subst ho
      exact ⟨hvol st.lotSize, rfl⟩
    | sendFail =>
      simp only [openPosition, hb, Bool.false_eq_true, if_false] at ho ⊢
      simp only [Option.some.injEq] at ho
      subst ho
      exact ⟨hvol st.lotSize, rfl⟩

/-- Witness for C9: the order produced from `stReady` (lot size 1) has
volume `max 10 (round 100) = 100`. -/
theorem C9_volume_formula_witness :
    ({ symbolId := 185, orderType := 1, tradeSide := 1, volume := 100 } : OrderReq).volume
      = max 10 (jsRound (stReady.lotSize * 100)) := by
  have hvol : computeOrderVolume stReady.lotSize = 100 := by
    have h1 : stReady.lotSize = 1 := rfl
    rw [h1]
    norm_num [computeOrderVolume, jsRound]
  have hb : (stReady.todayTradeDone || stReady.isPlacingOrder) = false := rfl
  exact (C9_volume_formula stReady TradeSide.long symNas symNas PlaceResult.ok _
    (by simp [openPosition, hb, hvol]; rfl)).1

/-! ## C10: unknown payload types are harmless -/

/-- Claim C10: for a frame whose numeric payload type is in neither enum,
`getPayloadTypeName` totally returns the fallback `Unknown(<id>)` string,
and `handleMessage` still refreshes the staleness clock, resolves a pending
request whose correlation id matches, and emits the frame as a `message`
event. -/
theorem C10_unknown_payload (commonVals oaVals : List (String × Nat)) (now : Nat)
    (st : ConnMsgState) (msg : WireMessage)
    (hc : ∀ kv ∈ commonVals, kv.2 ≠ msg.payloadType)
    (ho : ∀ kv ∈ oaVals, kv.2 ≠ msg.payloadType) :
    getPayloadTypeName commonVals oaVals msg.payloadType =
      "Unknown(" ++ toString msg.payloadType ++ ")" ∧
    (handleMessage commonVals oaVals now st msg).state.lastHeartbeat = now ∧
    (handleMessage commonVals oaVals now st msg).messageEmitted = true ∧
    ∀ id, msg.clientMsgId = some id →
      (st.pendingRequests.find? (fun kv => kv.1 == id)).isSome = true →
      (handleMessage commonVals oaVals now st msg).resolvedId = some id := by
  have hfc : commonVals.find? (fun kv => kv.2 == msg.payloadType) = none := by
    rw [List.find?_eq_none]
    intro kv hkv
    simpa using hc kv hkv
  have hfo : oaVals.find? (fun kv => kv.2 == msg.payloadType) = none := by
    rw [List.find?_eq_none]
    intro kv hkv
    simpa using ho kv hkv
  have hname : getPayloadTypeName commonVals oaVals msg.payloadType =
      "Unknown(" ++ toString msg.payloadType ++ ")" := by
    unfold getPayloadTypeName commonNameOfId oaNameOfId
    by_cases h2 : msg.payloadType < 2000 <;> simp [h2, hfc, hfo]
  have hbeat : (handleMessage commonVals oaVals now st msg).state.lastHeartbeat = now := by
    simp only [handleMessage]
    cases hid : msg.clientMsgId <;>
      simp only [hid] <;> split <;> (try split) <;> (try split) <;> rfl
  refine ⟨hname, hbeat, rfl, fun id hid hpend => ?_⟩
  simp [handleMessage, hid, hpend]

/-- Witness for C10: id 9999 is in neither enum; the frame still refreshes
the clock, resolves the pending request "5", and is emitted. -/
theorem C10_unknown_payload_witness :
    getPayloadTypeName commonValsW oaValsW 9999 = "Unknown(9999)" ∧
    (handleMessage commonValsW oaValsW 42 connMsgStW msgUnknownW).state.lastHeartbeat = 42 ∧
    (handleMessage commonValsW oaValsW 42 connMsgStW msgUnknownW).messageEmitted = true ∧
    (handleMessage commonValsW oaValsW 42 connMsgStW msgUnknownW).resolvedId = some "5" := by
  have h := C10_unknown_payload commonValsW oaValsW 42 connMsgStW msgUnknownW
    (by decide) (by decide)
  exact ⟨h.1, h.2.1, h.2.2.1, h.2.2.2 "5" rfl (by decide)⟩

/-! ## C8: baseline lifecycle -/

/-- Counterexample to C8 as stated: in the trace "successful fetch, then a
periodic refresh starts and fails" the baseline was successfully fetched
during the session (and no reset intervened), yet `todayOpenPrice` is null
afterwards - `fetchAndSetOpenPrice` clears the baseline before awaiting the
network and a failed refresh leaves it cleared, so "non-null iff fetched
this session" does not hold at every point. -/
theorem C8_counterexample :
    (baselineTrace.foldl baselineStep stBase).todayOpenPrice = none ∧
    baselineTrace.any isFetchSuccess = true ∧
    ∀ today, BaselineEvent.dailyReset today ∉ baselineTrace := by
  refine ⟨by decide, by decide, fun today => ?_⟩
  simp [baselineTrace]

/-- Helper: each modelled engine operation changes `todayOpenPrice` exactly
as the baseline projection predicts. -/
theorem baselineStep_projection (st : EngineState) (e : BaselineEvent) :
    (baselineStep st e).todayOpenPrice = baselineProjStep st.todayOpenPrice e := by
  cases e with
  | fetchStart => rfl
  | fetchSuccess p => rfl
  | fetchFail => rfl
  | dailyReset today => simp [baselineStep, baselineProjStep, resetDaily, performDailyReset, saveState]
  | spotTick mid => rfl
  | fillOpen b =>
    simp only [baselineStep, baselineProjStep, handleOrderFilledOpen]
    split <;> simp [saveState]
  | rejection =>
    simp only [baselineStep, baselineProjStep, handleRejection]
    split
    · split <;> simp [saveState]
    · rfl
  | tradeClosed d => simp [baselineStep, baselineProjStep, handleTradeClosed, saveState]
  | reconcile raw =>
    simp only [baselineStep, baselineProjStep, reconcilePositions]
    split <;> simp [saveState]
  | place side sym r =>
    simp only [baselineStep, baselineProjStep, openPosition]
    split
    · rfl
    · cases r <;> simp

/-- Helper: the trace projection of the baseline across any event list. -/
theorem baselineAfter_foldl (events : List BaselineEvent) :
    ∀ st : EngineState,
      ((events.foldl baselineStep st).todayOpenPrice = baselineAfter events st.todayOpenPrice) := by
  induction events with
  | nil => intro st; rfl
  | cons e es ih =>
    intro st
    rw [List.foldl_cons, ih, baselineStep_projection]
    rfl

/-- Helper: a non-null projected baseline originates from a successful
fetch in the trace or from the initial value. -/
theorem baselineAfter_provenance (events : List BaselineEvent) :
    ∀ init p, baselineAfter events init = some p →
      BaselineEvent.fetchSuccess p ∈ events ∨ init = some p := by
  induction events with
  | nil => intro init p h; exact Or.inr h
  | cons e es ih =>
    intro init p h
    rw [baselineAfter, List.foldl_cons] at h
    rcases ih (baselineProjStep init e) p h with hmem | hstep
    · exact Or.inl (List.mem_cons_of_mem e hmem)
    · cases e with
      | fetchSuccess q =>
        cases hstep
        exact Or.inl (List.mem_cons_self _ _)
      | fetchStart => exact absurd hstep (by simp [baselineProjStep])
      | dailyReset t => exact absurd hstep (by simp [baselineProjStep])
      | fetchFail => exact Or.inr hstep
      | spotTick mid => exact Or.inr hstep
      | fillOpen b => exact Or.inr hstep
      | rejection => exact Or.inr hstep
      | tradeClosed d => exact Or.inr hstep
      | reconcile raw => exact Or.inr hstep
      | place side sym r => exact Or.inr hstep

/-- Claim C8 (amended): over any interleaving of the modelled engine
operations, `todayOpenPrice` is exactly the value predicted by the
fetch/reset projection of the trace - so it is non-null only through a
successful fetch of the current session (each baseline refresh clears it
first and a failed refresh leaves it cleared) - and `executeStrategy`
never evaluates the entry comparison while `todayOpenPrice` is null. -/
theorem C8_baseline_lifecycle (st : EngineState) (events : List BaselineEvent) :
    ((events.foldl baselineStep st).todayOpenPrice = baselineAfter events st.todayOpenPrice) ∧
    (∀ p, (events.foldl baselineStep st).todayOpenPrice = some p →
      BaselineEvent.fetchSuccess p ∈ events ∨ st.todayOpenPrice = some p) ∧
    (∀ w, st.todayOpenPrice = none → executeStrategy w st = none) := by
  refine ⟨baselineAfter_foldl events st, fun p hp => ?_, fun w h => ?_⟩
  · exact baselineAfter_provenance events st.todayOpenPrice p
      ((baselineAfter_foldl events st).symm.trans hp)
  · cases hc : st.currentPrice <;> simp [executeStrategy, hc, h]

/-- Witness for C8: a fetch-success trace yields that baseline, and a state
with a null baseline never reaches the entry comparison. -/
theorem C8_baseline_lifecycle_witness :
    executeStrategy true stBase = none ∧
    (([BaselineEvent.fetchSuccess 7].foldl baselineStep stBase).todayOpenPrice = some 7) := by
  have h := C8_baseline_lifecycle stBase [BaselineEvent.fetchSuccess 7]
  exact ⟨h.2.2 true rfl, by rw [h.1]; rfl⟩

/-! ## C6: framing round-trip -/

/-- Unfolding of `extractAux` at zero fuel. -/
theorem extractAux_zero (b : List Nat) : extractAux 0 b = ([], b) := rfl

/-- Unfolding of `extractAux` at successor fuel. -/
theorem extractAux_succ (fuel : Nat) (b : List Nat) :
    extractAux (fuel + 1) b =
      if b.length < 4 then ([], b)
      else if b.length < 4 + readBE4 b then ([], b)
      else
        ((b.drop 4).take (readBE4 b) :: (extractAux fuel (b.drop (4 + readBE4 b))).1,
          (extractAux fuel (b.drop (4 + readBE4 b))).2) := rfl

/-- The fuel is irrelevant once it covers the buffer length. -/
theorem extractAux_congr (fuel1 : Nat) :
    ∀ (fuel2 : Nat) (b : List Nat), b.length ≤ fuel1 → b.length ≤ fuel2 →
      extractAux fuel1 b = extractAux fuel2 b := by
  induction fuel1 with
  | zero =>
    intro fuel2 b h1 h2
    have hb : b = [] := List.length_eq_zero.mp (by omega)
    subst hb
    cases fuel2 with
    | zero => rfl
    | succ m => rw [extractAux_zero, extractAux_succ]; simp
  | succ k ih =>
    intro fuel2 b h1 h2
    cases fuel2 with
    | zero =>
      have hb : b = [] := List.length_eq_zero.mp (by omega)
      subst hb
      rw [extractAux_zero, extractAux_succ]; simp
    | succ m =>
      rw [extractAux_succ, extractAux_succ]
      by_cases h4 : b.length < 4
      · rw [if_pos h4, if_pos h4]
      · rw [if_neg h4, if_neg h4]
        by_cases hst : b.length < 4 + readBE4 b
        · rw [if_pos hst, if_pos hst]
        · rw [if_neg hst, if_neg hst,
            ih m (b.drop (4 + readBE4 b)) (by rw [List.length_drop]; omega)
              (by rw [List.length_drop]; omega)]

/-- A buffer shorter than a complete frame extracts nothing. -/
theorem extractFrames_stuck (b : List Nat)
    (h : b.length < 4 ∨ b.length < 4 + readBE4 b) : extractFrames b = ([], b) := by
  unfold extractFrames
  cases hfl : b.length with
  | zero => exact extractAux_zero b
  | succ n =>
    rw [extractAux_succ]
    rcases h with h | h
    · rw [if_pos h]
    · by_cases h4 : b.length < 4
      · rw [if_pos h4]
      · rw [if_neg h4, if_pos h]

/-- A buffer holding a complete frame extracts it and continues. -/
theorem extractFrames_step (b : List Nat) (h4 : ¬ b.length < 4)
    (hst : ¬ b.length < 4 + readBE4 b) :
    extractFrames b =
      ((b.drop 4).take (readBE4 b) :: (extractFrames (b.drop (4 + readBE4 b))).1,
        (extractFrames (b.drop (4 + readBE4 b))).2) := by
  unfold extractFrames
  cases hfl : b.length with
  | zero => omega
  | succ n =>
    rw [extractAux_succ, if_neg h4, if_neg hst,
      extractAux_congr n (b.drop (4 + readBE4 b)).length (b.drop (4 + readBE4 b))
        (by rw [List.length_drop]; omega) le_rfl]

/-- Reading a 32-bit length only touches the first four bytes. -/
theorem readBE4_append (b d : List Nat) (h : 4 ≤ b.length) :
    readBE4 (b ++ d) = readBE4 b := by
  rcases b with _ | ⟨b0, _ | ⟨b1, _ | ⟨b2, _ | ⟨b3, t⟩⟩⟩⟩
  · simp at h
  · simp at h
  · simp at h
  · simp at h
  · rfl

/-- The 4-byte big-endian round trip for lengths below 2^32. -/
theorem readBE4_toBE4 (n : Nat) (rest : List Nat) (h : n < 4294967296) :
    readBE4 (toBE4 n ++ rest) = n := by
  simp only [toBE4, List.cons_append, List.nil_append, readBE4]
  omega

/-- The leftover of an extraction is always a partial frame. -/
theorem extractAux_quiescent (fuel : Nat) :
    ∀ b : List Nat, b.length ≤ fuel →
      extractFrames (extractAux fuel b).2 = ([], (extractAux fuel b).2) := by
  induction fuel with
  | zero =>
    intro b hb
    have hb0 : b = [] := List.length_eq_zero.mp (by omega)
    subst hb0
    rfl
  | succ k ih =>
    intro b hb
    by_cases h4 : b.length < 4
    · rw [extractAux_succ, if_pos h4]
      exact extractFrames_stuck b (Or.inl h4)
    · by_cases hst : b.length < 4 + readBE4 b
      · rw [extractAux_succ, if_neg h4, if_pos hst]
        exact extractFrames_stuck b (Or.inr hst)
      · rw [extractAux_succ, if_neg h4, if_neg hst]
        exact ih (b.drop (4 + readBE4 b)) (by rw [List.length_drop]; omega)

/-- The leftover of `extractFrames` is always a partial frame. -/
theorem extractFrames_quiescent (b : List Nat) :
    extractFrames (extractFrames b).2 = ([], (extractFrames b).2) :=
  extractAux_quiescent b.length b le_rfl

/-- Feeding more bytes continues extraction from the retained leftover. -/
theorem extractAux_resume (fuel : Nat) :
    ∀ b d : List Nat, b.length ≤ fuel →
      extractFrames (b ++ d) =
        ((extractAux fuel b).1 ++ (extractFrames ((extractAux fuel b).2 ++ d)).1,
          (extractFrames ((extractAux fuel b).2 ++ d)).2) := by
  induction fuel with
  | zero =>
    intro b d hb
    have hb0 : b = [] := List.length_eq_zero.mp (by omega)
    subst hb0
    simp [extractAux_zero]
  | succ k ih =>
    intro b d hb
    by_cases h4 : b.length < 4
    · rw [extractAux_succ, if_pos h4]
      simp
    · by_cases hst : b.length < 4 + readBE4 b
      · rw [extractAux_succ, if_neg h4, if_pos hst]
        simp
      · rw [extractAux_succ, if_neg h4, if_neg hst]
        have h4' : ¬ (b ++ d).length < 4 := by rw [List.length_append]; omega
        have hr4 : readBE4 (b ++ d) = readBE4 b := readBE4_append b d (by omega)
        have hst' : ¬ (b ++ d).length < 4 + readBE4 (b ++ d) := by
          rw [List.length_append, hr4]; omega
        rw [extractFrames_step (b ++ d) h4' hst', hr4]
        have hpay : ((b ++ d).drop 4).take (readBE4 b) = (b.drop 4).take (readBE4 b) := by
          rw [List.drop_append_of_le_length (by omega),
            List.take_append_of_le_length (by rw [List.length_drop]; omega)]
        have hdrop : (b ++ d).drop (4 + readBE4 b) = b.drop (4 + readBE4 b) ++ d :=
          List.drop_append_of_le_length (by omega)
        rw [hpay, hdrop, ih (b.drop (4 + readBE4 b)) d (by rw [List.length_drop]; omega)]
        simp

/-- Feeding more bytes continues `extractFrames` from the leftover. -/
theorem extractFrames_resume (b d : List Nat) :
    extractFrames (b ++ d) =
      ((extractFrames b).1 ++ (extractFrames ((extractFrames b).2 ++ d)).1,
        (extractFrames ((extractFrames b).2 ++ d)).2) :=
  extractAux_resume b.length b d le_rfl

/-- Extraction peels one encoded frame off the front of the buffer. -/
theorem extractFrames_encode (p rest : List Nat) (h : p.length < 4294967296) :
    extractFrames (encodeFrame p ++ rest) =
      (p :: (extractFrames rest).1, (extractFrames rest).2) := by
  have hassoc : encodeFrame p ++ rest = toBE4 p.length ++ (p ++ rest) := by
    rw [encodeFrame, List.append_assoc]
  have hread : readBE4 (encodeFrame p ++ rest) = p.length := by
    rw [hassoc]
    exact readBE4_toBE4 p.length (p ++ rest) h
  have hlen : (encodeFrame p ++ rest).length = 4 + p.length + rest.length := by
    simp [encodeFrame, toBE4]
    omega
  have h4 : ¬ (encodeFrame p ++ rest).length < 4 := by rw [hlen]; omega
  have hst : ¬ (encodeFrame p ++ rest).length < 4 + readBE4 (encodeFrame p ++ rest) := by
    rw [hlen, hread]; omega
  rw [extractFrames_step _ h4 hst, hread]
  have hd4 : (encodeFrame p ++ rest).drop 4 = p ++ rest := by
    rw [hassoc]
    exact List.drop_left' (by simp [toBE4])
  have hpay : ((encodeFrame p ++ rest).drop 4).take p.length = p := by
    rw [hd4]
    exact List.take_left p rest
  have hdropn : (encodeFrame p ++ rest).drop (4 + p.length) = rest := by
    rw [encodeFrame]
    exact List.drop_left' (by simp [toBE4]; omega)
  rw [hpay, hdropn]

/-- Extracting an encoded frame sequence followed by a partial tail yields
the payloads and leaves the tail alone. -/
theorem extractFrames_encodeAll (ps : List (List Nat)) (t : List Nat)
    (hps : ∀ p ∈ ps, p.length < 4294967296) :
    extractFrames (encodeAll ps ++ t) =
      (ps ++ (extractFrames t).1, (extractFrames t).2) := by
  induction ps with
  | nil => simp [encodeAll]
  | cons p ps ih =>
    have hsplit : encodeAll (p :: ps) ++ t = encodeFrame p ++ (encodeAll ps ++ t) := by
      simp [encodeAll, List.append_assoc]
    rw [hsplit, extractFrames_encode p _ (hps p (List.mem_cons_self p ps)),
      ih (fun q hq => hps q (List.mem_cons_of_mem p hq))]
    simp

/-- Unfolding of `frameLoop` at zero fuel. -/
theorem frameLoop_zero (b : List Nat) (off : Nat) : frameLoop 0 b off = ([], off) := rfl

/-- Unfolding of `frameLoop` at successor fuel. -/
theorem frameLoop_succ (fuel : Nat) (b : List Nat) (off : Nat) :
    frameLoop (fuel + 1) b off =
      if b.length - off < 4 then ([], off)
      else if b.length - off < 4 + readBE4 (b.drop off) then ([], off)
      else
        ((b.drop (off + 4)).take (readBE4 (b.drop off)) ::
            (frameLoop fuel b (off + 4 + readBE4 (b.drop off))).1,
          (frameLoop fuel b (off + 4 + readBE4 (b.drop off))).2) := rfl

/-- The offset-based scan loop of `handleIncomingData` agrees with the
greedy extraction on the suffix from the current offset. -/
theorem frameLoop_extract (fuel : Nat) :
    ∀ (b : List Nat) (off : Nat), b.length - off ≤ fuel →
      (frameLoop fuel b off).1 = (extractFrames (b.drop off)).1 ∧
      b.drop (frameLoop fuel b off).2 = (extractFrames (b.drop off)).2 := by
  induction fuel with
  | zero =>
    intro b off h
    have hnil : b.drop off = [] := List.drop_eq_nil_of_le (by omega)
    rw [frameLoop_zero, hnil]
    exact ⟨rfl, rfl⟩
  | succ k ih =>
    intro b off h
    have hdlen : (b.drop off).length = b.length - off := List.length_drop off b
    by_cases h4 : b.length - off < 4
    · have hstuck : extractFrames (b.drop off) = ([], b.drop off) :=
        extractFrames_stuck _ (Or.inl (by omega))
      rw [frameLoop_succ, if_pos h4, hstuck]
      exact ⟨rfl, rfl⟩
    · by_cases hst : b.length - off < 4 + readBE4 (b.drop off)
      · have hstuck : extractFrames (b.drop off) = ([], b.drop off) :=
          extractFrames_stuck _ (Or.inr (by omega))
        rw [frameLoop_succ, if_neg h4, if_pos hst, hstuck]
        exact ⟨rfl, rfl⟩
      · have hstep := extractFrames_step (b.drop off) (by omega) (by omega)
        have hd4 : (b.drop off).drop 4 = b.drop (off + 4) := by
          rw [List.drop_drop]
        have hdn : (b.drop off).drop (4 + readBE4 (b.drop off)) =
            b.drop (off + 4 + readBE4 (b.drop off)) := by
          rw [List.drop_drop, Nat.add_assoc]
        obtain ⟨ih1, ih2⟩ := ih b (off + 4 + readBE4 (b.drop off)) (by omega)
        rw [frameLoop_succ, if_neg h4, if_neg hst, hstep, hd4, hdn, ih1]
        exact ⟨rfl, ih2⟩

/-- `handleIncomingData` is exactly greedy frame extraction on the combined
buffer: it yields the complete frames and retains the partial tail. -/
theorem handleIncomingData_extract (buf data : List Nat) :
    handleIncomingData buf data = extractFrames (buf ++ data) := by
  obtain ⟨h1, h2⟩ := frameLoop_extract (buf ++ data).length (buf ++ data) 0 (by omega)
  rw [List.drop_zero] at h1 h2
  show ((frameLoop (buf ++ data).length (buf ++ data) 0).1,
      (buf ++ data).drop (frameLoop (buf ++ data).length (buf ++ data) 0).2) = _
  rw [h1, h2]

/-- Feeding chunks one by one equals extracting from the concatenation,
provided the starting buffer is a partial frame. -/
theorem feedAll_extract (chunks : List (List Nat)) :
    ∀ buf : List Nat, extractFrames buf = ([], buf) →
      feedAll buf chunks = extractFrames (buf ++ chunks.flatten) := by
  induction chunks with
  | nil =>
    intro buf hq
    rw [List.flatten_nil, List.append_nil, hq]
    rfl
  | cons c cs ih =>
    intro buf hq
    have hinc := handleIncomingData_extract buf c
    have hq1 := extractFrames_quiescent (buf ++ c)
    show ((handleIncomingData buf c).1 ++ (feedAll (handleIncomingData buf c).2 cs).1,
        (feedAll (handleIncomingData buf c).2 cs).2) = _
    rw [hinc, ih ((extractFrames (buf ++ c)).2) hq1]
    have hflat : buf ++ (c :: cs).flatten = (buf ++ c) ++ cs.flatten := by
      rw [List.flatten_cons, List.append_assoc]
    rw [hflat, extractFrames_resume (buf ++ c) cs.flatten]

/-- Claim C6: for any finite sequence of payloads (each below the 2^32
length limit of the 4-byte header), encoding each as a big-endian length
header plus payload, concatenating, optionally appending a partial trailing
frame, and feeding the result to the inbound framer in any fragmentation
whatsoever yields exactly the original payload sequence in order - nothing
dropped, duplicated or reordered - with the partial tail retained in the
buffer for the next feed. -/
theorem C6_framing_roundtrip (ps chunks : List (List Nat)) (t : List Nat)
    (hps : ∀ p ∈ ps, p.length < 4294967296)
    (hjoin : chunks.flatten = encodeAll ps ++ t)
    (ht : extractFrames t = ([], t)) :
    feedAll [] chunks = (ps, t) := by
  rw [feedAll_extract chunks [] rfl, List.nil_append, hjoin,
    extractFrames_encodeAll ps t hps, ht]
  simp

/-- Witness for C6: two payloads encoded and split into five ragged chunks
with a dangling partial frame come back intact, the partial frame buffered. -/
theorem C6_framing_roundtrip_witness :
    feedAll [] frameChunks = (framePayloads, frameTail) :=
  C6_framing_roundtrip framePayloads frameChunks frameTail (by decide) (by decide)
    (by decide)
